import Mathlib

/-!
The component `ExcelProcessor` of src/src/App.jsx: upload, process, download.

A shallow embedding of the `ExcelProcessor` component: its six React state
variables, the handlers `handleFileChange`, `handleRemoveFile`, `handleSubmit`,
`handleDownload`, `resetForm`, the interval callback started by
`handleFileChange`, and the render conditions that decide which control exists.

The browser pieces the handlers call (`atob`, property reads on the parsed JSON
value, `Array.prototype.join`, string conversion) are modelled from their
standards; texts chosen by the JavaScript engine are fields of `Engine`.

Left out: `formatFileSize` (floating point, used for display only), the
`ErrorBoundary` class, and the markup apart from the render conditions.
-/

namespace ExcelProcessor

/-! ## Data model -/

/-- A file handle delivered by the file picker (`event.target.files[0]`). -/
structure File where
  name : String
  size : Nat
deriving DecidableEq, Repr

/-- The three values `processingState` takes (App.jsx line 44). -/
inductive ProcessingState where
  | idle
  | processing
  | completed
deriving DecidableEq, Repr

/-- The `Blob` built at App.jsx lines 140-142: the bytes and the MIME type. -/
structure Blob where
  bytes : List Nat
  mimeType : String
deriving DecidableEq, Repr

/-- The value of `URL.createObjectURL(blob)`: a non-empty string naming the blob;
it is represented by the blob it refers to. -/
structure ObjectUrl where
  blob : Blob
deriving DecidableEq, Repr

/-- The six `useState` variables of `ExcelProcessor` (App.jsx lines 43-48). -/
structure State where
  selectedFile : Option File
  processingState : ProcessingState
  uploadingFile : Option File
  uploadProgress : Nat
  processedFileUrl : Option ObjectUrl
  error : Option String
deriving DecidableEq, Repr

/-- The initial values passed to `useState` (App.jsx lines 43-48). -/
def State.initial : State :=
  { selectedFile := none, processingState := .idle, uploadingFile := none,
    uploadProgress := 0, processedFileUrl := none, error := none }

/-- An interval started by `setInterval` at line 73; its callback closes over `file`. -/
structure Timer where
  id : Nat
  file : File
deriving DecidableEq, Repr

/-- One click on the temporary link of `handleDownload` (lines 166-171). -/
structure Download where
  href : ObjectUrl
  filename : String
deriving DecidableEq, Repr

/-- The component state together with the browser resources the handlers touch:
the value of the `file-upload` input, the running intervals, the requests whose
`fetch` has not settled yet, and the downloads triggered so far. -/
structure World extends State where
  fileInput : Option File
  timers : List Timer
  pending : List File
  downloads : List Download
deriving DecidableEq, Repr

/-- The component right after mounting. -/
def World.initial : World :=
  { State.initial with
    fileInput := none, timers := [], pending := [], downloads := [] }

/-! ## State setters and browser effects -/

def setSelectedFile (v : Option File) (w : World) : World := { w with selectedFile := v }

def setProcessingState (v : ProcessingState) (w : World) : World := { w with processingState := v }

def setUploadingFile (v : Option File) (w : World) : World := { w with uploadingFile := v }

def setUploadProgress (v : Nat) (w : World) : World := { w with uploadProgress := v }

def setProcessedFileUrl (v : Option ObjectUrl) (w : World) : World := { w with processedFileUrl := v }

def setError (v : Option String) (w : World) : World := { w with error := v }

/-- Lines 93-94 and 181-182: `if (fileInput) fileInput.value = ""`. -/
def clearFileInput (w : World) : World := { w with fileInput := none }

/-- An interval id that no running interval has. -/
def freshTimerId : List Timer → Nat
  | [] => 0
  | t :: rest => max (t.id + 1) (freshTimerId rest)

/-- Runs `setInterval(callback, 200)` with a callback closing over `file`; the
new interval gets an id that is not in use. -/
def setInterval (file : File) (w : World) : World :=
  { w with timers := w.timers ++ [{ id := freshTimerId w.timers, file := file }] }

/-- Runs `clearInterval(uploadInterval)`. -/
def clearInterval (id : Nat) (w : World) : World :=
  { w with timers := w.timers.filter (fun t => t.id != id) }

/-- Lines 109-115: the multipart POST of the selected file leaves the client. -/
def sendRequest (file : File) (w : World) : World := { w with pending := w.pending ++ [file] }

/-- Lines 166-171: the temporary link is clicked. -/
def clickLink (href : ObjectUrl) (filename : String) (w : World) : World :=
  { w with downloads := w.downloads ++ [{ href := href, filename := filename }] }

/-! ## JavaScript values obtained from `response.json()` -/

/-- A number produced by `JSON.parse` is a double; only what the handler can
observe of it is kept: its truthiness, whether it is `> 0`, and its string form. -/
structure JsNumber where
  nonZero : Bool
  positive : Bool
  text : String
deriving Repr

/-- A value produced by `JSON.parse`; `obj` lists the own properties. -/
inductive Json where
  | null
  | bool (b : Bool)
  | num (n : JsNumber)
  | str (s : String)
  | arr (items : List Json)
  | obj (props : List (String × Json))

/-- Texts and conversions that the JavaScript engine chooses. -/
structure Engine where
  /-- Message of the SyntaxError with which `response.json()` rejects a body that is not JSON. -/
  parseErrorMessage : String → String
  /-- Message of the TypeError for reading the named property of `null`. -/
  nullPropertyMessage : String → String
  /-- Message of the TypeError for calling a value that is not a function. -/
  notCallableMessage : String
  /-- Message of the TypeError for an object that has no primitive value. -/
  toPrimitiveMessage : String
  /-- Message of the InvalidCharacterError raised by `atob`. -/
  invalidCharacterMessage : String
  /-- Whether the number denoted by a string is greater than zero. -/
  stringPositive : String → Bool

/-- JavaScript truthiness; `none` stands for `undefined`. -/
def truthy : Option Json → Bool
  | none => false
  | some .null => false
  | some (.bool b) => b
  | some (.num n) => n.nonZero
  | some (.str s) => s != ""
  | some (.arr _) => true
  | some (.obj _) => true

/-- Reads `value.key` for a key that no built-in prototype defines
(`error`, `file`, `errors`): a TypeError on `null`, an own property of an
object, `undefined` otherwise. -/
def getField (E : Engine) (value : Json) (key : String) : Except String (Option Json) :=
  match value with
  | .null => .error (E.nullPropertyMessage key)
  | .obj props => .ok (props.lookup key)
  | _ => .ok none

/-- The strings joined with a separator between neighbours, as `Array.prototype.join` does. -/
def joinWith (sep : String) : List String → String
  | [] => ""
  | [x] => x
  | x :: y :: rest => x ++ sep ++ joinWith sep (y :: rest)

mutual
/-- The abstract operation ToString on a parsed JSON value. An object whose own
`toString` property shadows the inherited method has no primitive value. -/
def Json.toStr (E : Engine) : Json → Except String String
  | .null => .ok "null"
  | .bool b => .ok (if b then "true" else "false")
  | .num n => .ok n.text
  | .str s => .ok s
  | .arr items =>
    match Json.itemStrs E items with
    | .ok parts => .ok (joinWith "," parts)
    | .error m => .error m
  | .obj props =>
    if (props.lookup "toString").isSome then .error E.toPrimitiveMessage
    else .ok "[object Object]"
/-- The element strings used by `Array.prototype.join`: `null` gives the empty
string, every other element its ToString. -/
def Json.itemStrs (E : Engine) : List Json → Except String (List String)
  | [] => .ok []
  | x :: rest =>
    match (match x with
           | .null => Except.ok ""
           | v => Json.toStr E v) with
    | .error m => .error m
    | .ok s =>
      match Json.itemStrs E rest with
      | .ok parts => .ok (s :: parts)
      | .error m => .error m
end

/-- The comparison `value > 0` for a parsed JSON value. -/
def gtZero (E : Engine) : Json → Except String Bool
  | .null => .ok false
  | .bool b => .ok b
  | .num n => .ok n.positive
  | .str s => .ok (E.stringPositive s)
  | v =>
    match Json.toStr E v with
    | .ok s => .ok (E.stringPositive s)
    | .error m => .error m

/-- The test `value.length > 0` of line 147. -/
def lengthPositive (E : Engine) : Json → Except String Bool
  | .null => .error (E.nullPropertyMessage "length")
  | .arr items => .ok (!items.isEmpty)
  | .str s => .ok (s != "")
  | .obj props =>
    match props.lookup "length" with
    | none => .ok false
    | some l => gtZero E l
  | _ => .ok false

/-- The call `value.join(sep)` of line 148: only arrays have a `join` method. -/
def callJoin (E : Engine) (sep : String) : Json → Except String String
  | .null => .error (E.nullPropertyMessage "join")
  | .arr items =>
    match Json.itemStrs E items with
    | .ok parts => .ok (joinWith sep parts)
    | .error m => .error m
  | _ => .error E.notCallableMessage

/-! ## Base64 -/

/-- The character of the base64 alphabet with the given 6-bit value (RFC 4648, table 1). -/
def base64Char (n : Nat) : Char :=
  if n < 26 then Char.ofNat (65 + n)
  else if n < 52 then Char.ofNat (97 + (n - 26))
  else if n < 62 then Char.ofNat (48 + (n - 52))
  else if n = 62 then '+'
  else '/'

/-- The 6-bit value of a character of the base64 alphabet. -/
def base64Value (c : Char) : Option Nat :=
  let n := c.toNat
  if 65 ≤ n ∧ n ≤ 90 then some (n - 65)
  else if 97 ≤ n ∧ n ≤ 122 then some (n - 97 + 26)
  else if 48 ≤ n ∧ n ≤ 57 then some (n - 48 + 52)
  else if n = 43 then some 62
  else if n = 47 then some 63
  else none

/-- The 6-bit groups of a byte sequence, three bytes to four groups; a final
group of one or two bytes is filled up with zero bits (RFC 4648, section 4). -/
def encodeSextets : List Nat → List Nat
  | a :: b :: c :: rest =>
    (a / 4) :: ((a % 4) * 16 + b / 16) :: ((b % 16) * 4 + c / 64) :: (c % 64) :: encodeSextets rest
  | [a, b] => [a / 4, (a % 4) * 16 + b / 16, (b % 16) * 4]
  | [a] => [a / 4, (a % 4) * 16]
  | [] => []

/-- The padding that completes the last quantum of the encoding of `n` bytes. -/
def base64Padding (n : Nat) : List Char :=
  if n % 3 = 1 then ['=', '='] else if n % 3 = 2 then ['='] else []

/-- The standard base64 encoding of a byte sequence, with padding (RFC 4648, section 4). -/
def base64Encode (bytes : List Nat) : String :=
  String.mk ((encodeSextets bytes).map base64Char ++ base64Padding bytes.length)

/-- ASCII whitespace: tab, line feed, form feed, carriage return, space. -/
def isAsciiWhitespace (c : Char) : Bool :=
  c.toNat = 9 ∨ c.toNat = 10 ∨ c.toNat = 12 ∨ c.toNat = 13 ∨ c.toNat = 32

/-- Step 2 of forgiving-base64 decode: when the length is a multiple of four,
one or two trailing `=` are removed. -/
def stripPadding (data : List Char) : List Char :=
  if data.length % 4 = 0 then
    if data.getLast? = some '=' then
      if data.dropLast.getLast? = some '=' then data.dropLast.dropLast else data.dropLast
    else data
  else data

/-- Steps 5-7 of forgiving-base64 decode: 24 bits give three bytes, a rest of
18 bits gives two bytes, a rest of 12 bits gives one byte. -/
def decodeSextets : List Nat → List Nat
  | a :: b :: c :: d :: rest =>
    (a * 4 + b / 16) :: ((b % 16) * 16 + c / 4) :: ((c % 4) * 64 + d) :: decodeSextets rest
  | [a, b, c] => [a * 4 + b / 16, (b % 16) * 16 + c / 4]
  | [a, b] => [a * 4 + b / 16]
  | _ => []

/-- The browser function `atob` (forgiving-base64 decode of the HTML standard):
the result is the binary string whose code units are the decoded bytes. -/
def atob (E : Engine) (data : String) : Except String String :=
  let stripped := stripPadding (data.data.filter (fun c => !isAsciiWhitespace c))
  if stripped.length % 4 = 1 then .error E.invalidCharacterMessage
  else
    match stripped.mapM base64Value with
    | none => .error E.invalidCharacterMessage
    | some sextets => .ok (String.mk ((decodeSextets sextets).map Char.ofNat))

/-- Lines 136-139: a `Uint8Array` of the string length, filled with
`charCodeAt(i)`; a typed array stores the value modulo 256. -/
def charCodes (binaryString : String) : List Nat :=
  binaryString.data.map (fun c => c.toNat % 256)

/-! ## The server reply -/

/-- The body of an HTTP response: text that is not JSON, or a JSON value. -/
inductive Body where
  | notJson (raw : String)
  | json (value : Json)

/-- What `fetch` settles with: a rejection (no response was received), or a
response with its status and body. -/
inductive Reply where
  | rejected (message : String)
  | response (status : Nat) (body : Body)

/-- The getter `response.ok`: the status is in the range 200-299. -/
def responseOk (status : Nat) : Bool := 200 ≤ status && status ≤ 299

/-- The call `response.json()`: rejects with a SyntaxError on a body that is not JSON. -/
def responseJson (E : Engine) : Body → Except String Json
  | .notJson raw => .error (E.parseErrorMessage raw)
  | .json value => .ok value

/-- The operator `a || b`: `a` if it is truthy, else `b`. -/
def jsOr (a b : Option Json) : Option Json := if truthy a then a else b

/-- The abstract operation ToString on a value that may be `undefined`. -/
def toStr (E : Engine) : Option Json → Except String String
  | none => .ok "undefined"
  | some v => Json.toStr E v

/-- The message of the error that `throw new Error(value)` throws: empty for
`undefined`, else the ToString of `value`, or the message of the TypeError that
the conversion raises. -/
def thrownMessage (E : Engine) (value : Option Json) : String :=
  match value with
  | none => ""
  | some v =>
    match Json.toStr E v with
    | .ok m => m
    | .error m => m

def xlsxMimeType : String := "application/vnd.openxmlformats-officedocument.spreadsheetml.sheet"

/-! ## Handlers -/

/-- The method `String.prototype.endsWith`. -/
def endsWith (s suffix : String) : Bool := suffix.data.isSuffixOf s.data

/-- Lines 58-85. -/
def handleFileChange (file : Option File) (w : World) : World :=
  match file with
  | none => setError (some "No file selected") w
  | some file =>
    if !endsWith file.name ".xlsx" then
      setError (some "Please upload a valid .xlsx file") w
    else
      w |> setUploadingFile (some file) |> setUploadProgress 0 |> setError none
        |> setInterval file

/-- Lines 73-84: one run of the callback of interval `id`. The updater reads the
current progress; the value it returns (100 on the last run) is applied before
the state writes it has queued, so `setUploadProgress(0)` is the last write. -/
def uploadTick (id : Nat) (w : World) : World :=
  match w.timers.find? (fun t => t.id == id) with
  | none => w
  | some t =>
    if w.uploadProgress ≥ 100 then
      w |> clearInterval id |> setSelectedFile (some t.file) |> setUploadingFile none
        |> setUploadProgress 100 |> setUploadProgress 0
    else
      setUploadProgress (w.uploadProgress + 10) w

/-- Lines 87-95. -/
def handleRemoveFile (w : World) : World :=
  w |> setSelectedFile none |> setUploadingFile none |> setUploadProgress 0
    |> setProcessedFileUrl none |> setError none |> clearFileInput

/-- Lines 97-115: `handleSubmit` up to the point where it awaits `fetch`. -/
def submitStart (w : World) : World :=
  match w.selectedFile with
  | none => setError (some "Please select a file to process") w
  | some file =>
    w |> setProcessingState .processing |> setError none |> setProcessedFileUrl none
      |> sendRequest file

/-- Lines 147-149: the row-level warnings. -/
def surfaceWarnings (E : Engine) (errors : Option Json) (w : World) : World × Option String :=
  match errors with
  | none => (w, none)
  | some e =>
    if !truthy (some e) then (w, none)
    else
      match lengthPositive E e with
      | .error m => (w, some m)
      | .ok false => (w, none)
      | .ok true =>
        match callJoin E "\n" e with
        | .error m => (w, some m)
        | .ok joined => (setError (some ("Some rows had issues:\n" ++ joined)) w, none)

/-- Lines 112-151: the `try` block from the point where `fetch` settles. The
result is the state when the block is left and the message of the error it
throws, if any. -/
def submitTry (E : Engine) (reply : Reply) (w : World) : World × Option String :=
  match reply with
  | .rejected message => (w, some message)
  | .response status body =>
    match responseJson E body with
    | .error m => (w, some m)
    | .ok jsonResponse =>
      if !responseOk status then
        let w := setProcessingState .idle w
        match getField E jsonResponse "error" with
        | .error m => (w, some m)
        | .ok err =>
          (w, some (thrownMessage E
            (jsOr err (some (.str ("Server error: " ++ toString status))))))
      else
        match getField E jsonResponse "error" with
        | .error m => (w, some m)
        | .ok err =>
          if truthy err then
            (setProcessingState .idle w, some (thrownMessage E err))
          else
            match getField E jsonResponse "file" with
            | .error m => (w, some m)
            | .ok file =>
              if !truthy file then
                (setProcessingState .idle w, some "No processed file returned from server")
              else
                match (toStr E file).bind (atob E) with
                | .error m => (w, some m)
                | .ok binaryString =>
                  let bytes := charCodes binaryString
                  let blob : Blob := { bytes := bytes, mimeType := xlsxMimeType }
                  let url : ObjectUrl := { blob := blob }
                  let w := setProcessedFileUrl (some url) w
                  match getField E jsonResponse "errors" with
                  | .error m => (w, some m)
                  | .ok errors =>
                    match surfaceWarnings E errors w with
                    | (w, some m) => (w, some m)
                    | (w, none) => (setProcessingState .completed w, none)

/-- Lines 152-157: the `catch` block. -/
def submitCatch (message : String) (w : World) : World :=
  w |> setError (some (if message != "" then message
        else "Sorry, something went wrong while processing the file. Please try again later."))
    |> setProcessingState .idle |> setProcessedFileUrl none

/-- Lines 112-157: the rest of `handleSubmit`, run when `fetch` settles. -/
def submitSettle (E : Engine) (reply : Reply) (w : World) : World :=
  let w := { w with pending := w.pending.tail }
  match submitTry E reply w with
  | (w, none) => w
  | (w, some message) => submitCatch message w

/-- Lines 97-158: a whole run of `handleSubmit` in which the server answers with `reply`. -/
def handleSubmit (E : Engine) (reply : Reply) (w : World) : World :=
  match w.selectedFile with
  | none => submitStart w
  | some _ => submitSettle E reply (submitStart w)

/-- Lines 160-172. -/
def handleDownload (w : World) : World :=
  match w.processedFileUrl with
  | none => setError (some "No processed file available for download") w
  | some url =>
    let name := match w.selectedFile with
      | some f => if f.name != "" then f.name else "file.xlsx"
      | none => "file.xlsx"
    clickLink url ("processed_" ++ name) w

/-- Lines 174-183. -/
def resetForm (w : World) : World :=
  w |> setSelectedFile none |> setUploadingFile none |> setUploadProgress 0
    |> setProcessingState .idle |> setProcessedFileUrl none |> setError none |> clearFileInput

/-! ## The rendered controls -/

/-- Whether `./components/input` and `./components/button`, which are not part
of the sources, pass the `disabled` property on to the DOM element. -/
structure Components where
  inputDisabled : Bool
  buttonDisabled : Bool

/-- What can happen to the mounted component. -/
inductive Event where
  | select (file : Option File)
  | tick (id : Nat)
  | remove
  | submit
  | settle (reply : Reply)
  | download
  | reset

/-- Whether the event can occur in a state. The form with the file input, the
remove button and the submit button is rendered only while idle (line 215), the
remove button only with a selected file and no upload under way (line 266), the
download and reset buttons only when completed (line 311); the input is disabled
during an upload (line 237) and the submit button without a selected file or
during an upload (line 289). An interval callback runs only while its interval
exists, and a submission settles only while its request is pending. -/
def enabled (C : Components) (w : World) : Event → Bool
  | .select _ =>
    w.processingState == .idle && !(C.inputDisabled && w.uploadingFile.isSome)
  | .tick id => w.timers.any (fun t => t.id == id)
  | .remove =>
    w.processingState == .idle && w.selectedFile.isSome && w.uploadingFile.isNone
  | .submit =>
    w.processingState == .idle &&
      !(C.buttonDisabled && (w.selectedFile.isNone || w.uploadingFile.isSome))
  | .settle _ => !w.pending.isEmpty
  | .download => w.processingState == .completed
  | .reset => w.processingState == .completed

/-- The handler (or callback, or continuation) that an event runs. -/
def handle (E : Engine) : Event → World → World
  | .select file => fun w => handleFileChange file { w with fileInput := file }
  | .tick id => uploadTick id
  | .remove => handleRemoveFile
  | .submit => submitStart
  | .settle reply => submitSettle E reply
  | .download => handleDownload
  | .reset => resetForm

/-- An event acts through its handler when its control exists and is enabled. -/
def dispatch (E : Engine) (C : Components) (ev : Event) (w : World) : World :=
  if enabled C w ev then handle E ev w else w

/-- The state after a sequence of events. -/
def run (E : Engine) (C : Components) (events : List Event) (w : World) : World :=
  events.foldl (fun w ev => dispatch E C ev w) w

/-- The state after `n` runs of the callback of interval `id`. -/
def ticks (id : Nat) : Nat → World → World
  | 0, w => w
  | n + 1, w => uploadTick id (ticks id n w)

/-- An engine for concrete evaluation, with the texts of V8 (quotation marks left out). -/
def sampleEngine : Engine :=
  { parseErrorMessage := fun _ => "Unexpected end of JSON input"
    nullPropertyMessage := fun k => "Cannot read properties of null (reading " ++ k ++ ")"
    notCallableMessage := "jsonResponse.errors.join is not a function"
    toPrimitiveMessage := "Cannot convert object to primitive value"
    invalidCharacterMessage := "The string to be decoded is not correctly encoded."
    stringPositive := fun _ => false }

/-- A spreadsheet file for concrete evaluation. -/
def sampleFile : File := { name := "products.xlsx", size := 2048 }

/-- A state with `sampleFile` selected and nothing else set. -/
def sampleWorld : World := { World.initial with selectedFile := some sampleFile }

/-- The state after `sampleFile` was processed successfully. -/
def completedWorld : World :=
  handleSubmit sampleEngine (.response 200 (.json (.obj [("file", .str "SGk=")]))) sampleWorld

/-- What holds in every state the mounted component can reach: a request is
pending exactly while processing, at most one is pending, and completed comes
with an artifact. -/
def Consistent (w : World) : Prop :=
  (w.pending ≠ [] ↔ w.processingState = .processing) ∧
  w.pending.length ≤ 1 ∧
  (w.processingState = .completed → w.processedFileUrl.isSome = true)

attribute [simp] setSelectedFile setProcessingState setUploadingFile setUploadProgress
  setProcessedFileUrl setError clearFileInput setInterval clearInterval sendRequest clickLink

/-! ## Reset, remove and the validation failures -/

/-- C10: from every state `resetForm` yields exactly the initial values of the six
state variables (idle, no selected file, no upload marker, progress 0, no
artifact, no error message), and running it twice equals running it once. -/
theorem resetForm_initial (w : World) :
    (resetForm w).toState = State.initial ∧ resetForm (resetForm w) = resetForm w := by
  constructor <;> simp [resetForm, State.initial]

/-- C8: each of the four validation failures (no file chosen, a file whose name
does not end in .xlsx, submit without a selected file, download without an
artifact) replaces the error message by its validation text and changes nothing
else: no state variable, no interval, no pending request, no download. -/
theorem validation_failure_frame :
    (∀ w : World, handleFileChange none w = { w with error := some "No file selected" }) ∧
    (∀ (w : World) (f : File), endsWith f.name ".xlsx" = false →
      handleFileChange (some f) w = { w with error := some "Please upload a valid .xlsx file" }) ∧
    (∀ (E : Engine) (reply : Reply) (w : World), w.selectedFile = none →
      handleSubmit E reply w = { w with error := some "Please select a file to process" }) ∧
    (∀ w : World, w.processedFileUrl = none →
      handleDownload w = { w with error := some "No processed file available for download" }) := by
  refine ⟨fun w => rfl, fun w f h => ?_, fun E reply w h => ?_, fun w h => ?_⟩
  · simp [handleFileChange, h]
  · simp [handleSubmit, submitStart, h]
  · simp [handleDownload, h]

/-- C8, at concrete inputs: a text file is refused, and submit and download are
refused in the initial state. -/
theorem validation_failure_frame_witness :
    handleFileChange (some { name := "notes.txt", size := 1 }) World.initial
        = { World.initial with error := some "Please upload a valid .xlsx file" } ∧
    handleSubmit sampleEngine (.rejected "") World.initial
        = { World.initial with error := some "Please select a file to process" } ∧
    handleDownload World.initial
        = { World.initial with error := some "No processed file available for download" } :=
  ⟨validation_failure_frame.2.1 World.initial { name := "notes.txt", size := 1 } (by decide),
   validation_failure_frame.2.2.1 sampleEngine (.rejected "") World.initial rfl,
   validation_failure_frame.2.2.2 World.initial rfl⟩

/-! ## The simulated upload -/

theorem lt_freshTimerId (timers : List Timer) : ∀ t ∈ timers, t.id < freshTimerId timers := by
  induction timers with
  | nil => intro t ht; cases ht
  | cons a rest ih =>
    intro t ht
    rcases List.mem_cons.mp ht with h | h
    · subst h; simp [freshTimerId]
    · have := ih t h
      simp only [freshTimerId]
      omega

theorem find_fresh_timer (timers : List Timer) (f : File) :
    (timers ++ [({ id := freshTimerId timers, file := f } : Timer)]).find?
        (fun t => t.id == freshTimerId timers) = some { id := freshTimerId timers, file := f } := by
  rw [List.find?_append]
  have h : timers.find? (fun t => t.id == freshTimerId timers) = none := by
    rw [List.find?_eq_none]
    intro t ht
    have := lt_freshTimerId timers t ht
    simp
    omega
  simp [h]

theorem ticks_progress (w : World) (f : File) (hext : endsWith f.name ".xlsx" = true) :
    ∀ k, k ≤ 10 →
      ticks (freshTimerId w.timers) k (handleFileChange (some f) w)
        = { handleFileChange (some f) w with uploadProgress := 10 * k } := by
  intro k
  induction k with
  | zero => intro _; simp [ticks, handleFileChange, hext]
  | succ n ih =>
    intro hn
    have hfind := find_fresh_timer w.timers f
    rw [ticks, ih (by omega)]
    simp only [uploadTick, handleFileChange, hext]
    simp [hfind]
    have h100 : ¬ 100 ≤ 10 * n := by omega
    rw [if_neg h100]
    simp
    omega

/-- C7: selecting a file whose name ends in .xlsx sets the upload marker to it
and the progress to 0; the k-th run of the interval callback, for k from 0 to
10, leaves the progress at 10 k (so 0, 10, ..., 100) with the selected file
unchanged and the marker still set; the run after the progress reached 100
sets the selected file to the chosen file, clears the marker and the interval,
and leaves the progress at 0. -/
theorem upload_progress (w : World) (f : File) (hext : endsWith f.name ".xlsx" = true) :
    (handleFileChange (some f) w).uploadingFile = some f ∧
    (handleFileChange (some f) w).uploadProgress = 0 ∧
    (∀ k, k ≤ 10 →
      (ticks (freshTimerId w.timers) k (handleFileChange (some f) w)).uploadProgress = 10 * k ∧
      (ticks (freshTimerId w.timers) k (handleFileChange (some f) w)).selectedFile
        = w.selectedFile ∧
      (ticks (freshTimerId w.timers) k (handleFileChange (some f) w)).uploadingFile = some f) ∧
    (ticks (freshTimerId w.timers) 11 (handleFileChange (some f) w)).selectedFile = some f ∧
    (ticks (freshTimerId w.timers) 11 (handleFileChange (some f) w)).uploadingFile = none ∧
    (ticks (freshTimerId w.timers) 11 (handleFileChange (some f) w)).uploadProgress = 0 ∧
    (ticks (freshTimerId w.timers) 11 (handleFileChange (some f) w)).timers = w.timers := by
  have hfind := find_fresh_timer w.timers f
  have h11 : ticks (freshTimerId w.timers) 11 (handleFileChange (some f) w)
      = uploadTick (freshTimerId w.timers)
          { handleFileChange (some f) w with uploadProgress := 10 * 10 } := by
    rw [ticks, ticks_progress w f hext 10 (by omega)]
  refine ⟨by simp [handleFileChange, hext], by simp [handleFileChange, hext], ?_, ?_⟩
  · intro k hk
    rw [ticks_progress w f hext k hk]
    simp [handleFileChange, hext]
  · rw [h11]
    simp only [uploadTick, handleFileChange, hext]
    simp [hfind]
    intro t ht
    have := lt_freshTimerId w.timers t ht
    omega

/-- C7, for `sampleFile` selected in the initial state. -/
theorem upload_progress_witness :
    (ticks 0 10 (handleFileChange (some sampleFile) World.initial)).uploadProgress = 100 ∧
    (ticks 0 10 (handleFileChange (some sampleFile) World.initial)).selectedFile = none ∧
    (ticks 0 11 (handleFileChange (some sampleFile) World.initial)).selectedFile
      = some sampleFile :=
  ⟨((upload_progress World.initial sampleFile (by decide)).2.2.1 10 (by decide)).1,
   ((upload_progress World.initial sampleFile (by decide)).2.2.1 10 (by decide)).2.1,
   (upload_progress World.initial sampleFile (by decide)).2.2.2.1⟩

/-! ## Outcomes of a submission -/

theorem surfaceWarnings_frame (E : Engine) (errors : Option Json) (w : World) :
    (surfaceWarnings E errors w).1 = w ∨
      ∃ m, (surfaceWarnings E errors w).1 = { w with error := some m } := by
  unfold surfaceWarnings
  split
  · exact Or.inl rfl
  · split
    · exact Or.inl rfl
    · split
      · exact Or.inl rfl
      · exact Or.inl rfl
      · split
        · exact Or.inl rfl
        · exact Or.inr ⟨_, rfl⟩

theorem surfaceWarnings_url (E : Engine) (errors : Option Json) (w : World) :
    (surfaceWarnings E errors w).1.processedFileUrl = w.processedFileUrl := by
  rcases surfaceWarnings_frame E errors w with h | ⟨m, h⟩ <;> rw [h]

theorem surfaceWarnings_url_of_eq {E : Engine} {errors : Option Json} {w w1 : World}
    {thrown : Option String} (h : surfaceWarnings E errors w = (w1, thrown)) :
    w1.processedFileUrl = w.processedFileUrl := by
  have := surfaceWarnings_url E errors w
  rw [h] at this
  exact this

theorem submitCatch_outcome (message : String) (w : World) :
    (submitCatch message w).processingState = .idle ∧
    (submitCatch message w).processedFileUrl = none ∧
    ∃ m, (submitCatch message w).error = some m ∧ m ≠ "" := by
  refine ⟨rfl, rfl, _, rfl, ?_⟩
  by_cases h : message = ""
  · subst h; decide
  · simp [h]

theorem submitTry_returns (E : Engine) (reply : Reply) (w : World) :
    (submitTry E reply w).2 = none →
    (submitTry E reply w).1.processingState = .completed ∧
    (submitTry E reply w).1.processedFileUrl.isSome = true := by
  unfold submitTry
  repeat' split
  all_goals try (intro h; simp at h; done)
  dsimp only
  split
  · intro h; simp at h
  · rename_i heq
    intro _
    have hurl := surfaceWarnings_url_of_eq heq
    simp at hurl
    simp [hurl]

/-- C3: a run of `handleSubmit` with a file selected, whatever `fetch` settles
with (a rejection, any status, a body that is not JSON, any JSON value), ends
either completed with an artifact set, or idle with no artifact and a non-empty
error message; every error thrown in the `try` block is turned into that
message by the `catch` block, and the run never ends in processing. -/
theorem handleSubmit_outcome (E : Engine) (reply : Reply) (w : World) (f : File)
    (hsel : w.selectedFile = some f) :
    ((handleSubmit E reply w).processingState = .completed ∧
      (handleSubmit E reply w).processedFileUrl.isSome = true) ∨
    ((handleSubmit E reply w).processingState = .idle ∧
      (handleSubmit E reply w).processedFileUrl = none ∧
      ∃ m, (handleSubmit E reply w).error = some m ∧ m ≠ "") := by
  simp only [handleSubmit, hsel, submitSettle]
  split
  · rename_i w1 h
    left
    have := submitTry_returns E reply _ (by rw [h])
    rw [h] at this
    exact this
  · rename_i w1 m h
    right
    exact submitCatch_outcome m w1

/-- C3, for a rejected `fetch` with an empty message. -/
theorem handleSubmit_outcome_witness :
    ((handleSubmit sampleEngine (.rejected "") sampleWorld).processingState = .completed ∧
      (handleSubmit sampleEngine (.rejected "") sampleWorld).processedFileUrl.isSome = true) ∨
    ((handleSubmit sampleEngine (.rejected "") sampleWorld).processingState = .idle ∧
      (handleSubmit sampleEngine (.rejected "") sampleWorld).processedFileUrl = none ∧
      ∃ m, (handleSubmit sampleEngine (.rejected "") sampleWorld).error = some m ∧ m ≠ "") :=
  handleSubmit_outcome sampleEngine (.rejected "") sampleWorld sampleFile rfl

/-- C4: when the JSON body is an object whose `error` field is a non-empty
string m, then at every HTTP status and whatever else the body carries, a run
of `handleSubmit` with a file selected ends idle, with no artifact, and with
the error message exactly m. -/
theorem server_error_passes_through (E : Engine) (status : Nat)
    (props : List (String × Json)) (m : String) (w : World) (f : File)
    (hsel : w.selectedFile = some f)
    (herr : props.lookup "error" = some (.str m)) (hm : m ≠ "") :
    (handleSubmit E (.response status (.json (.obj props))) w).processingState = .idle ∧
    (handleSubmit E (.response status (.json (.obj props))) w).processedFileUrl = none ∧
    (handleSubmit E (.response status (.json (.obj props))) w).error = some m := by
  by_cases hok : responseOk status = true <;>
    simp [handleSubmit, hsel, submitSettle, submitStart, submitTry, responseJson, getField, herr,
      truthy, hm, hok, thrownMessage, jsOr, Json.toStr, submitCatch]

/-- C4, for status 200 and a body that carries a valid `file` besides `error`. -/
theorem server_error_passes_through_witness :
    (handleSubmit sampleEngine (.response 200 (.json (.obj
        [("file", .str "SGk="), ("error", .str "bad row 3")]))) sampleWorld).processingState
      = .idle ∧
    (handleSubmit sampleEngine (.response 200 (.json (.obj
        [("file", .str "SGk="), ("error", .str "bad row 3")]))) sampleWorld).processedFileUrl
      = none ∧
    (handleSubmit sampleEngine (.response 200 (.json (.obj
        [("file", .str "SGk="), ("error", .str "bad row 3")]))) sampleWorld).error
      = some "bad row 3" :=
  server_error_passes_through sampleEngine 200 [("file", .str "SGk="), ("error", .str "bad row 3")]
    "bad row 3" sampleWorld sampleFile rfl rfl (by decide)

theorem itemStrs_strings (E : Engine) (ws : List String) :
    Json.itemStrs E (ws.map Json.str) = .ok ws := by
  induction ws with
  | nil => simp [Json.itemStrs]
  | cons x rest ih => simp [Json.itemStrs, Json.toStr, ih]

theorem joinWith_contains (sep : String) (ws : List String) :
    ∀ x ∈ ws, ∃ pre post, joinWith sep ws = pre ++ x ++ post := by
  induction ws with
  | nil => intro x hx; cases hx
  | cons a rest ih =>
    intro x hx
    cases rest with
    | nil =>
      have : x = a := by simpa using hx
      subst this
      exact ⟨"", "", by simp [joinWith]⟩
    | cons b tail =>
      rcases List.mem_cons.mp hx with h | h
      · subst h
        exact ⟨"", sep ++ joinWith sep (b :: tail), by simp [joinWith, String.append_assoc]⟩
      · obtain ⟨pre, post, hpp⟩ := ih x h
        exact ⟨a ++ sep ++ pre, post, by simp [joinWith, hpp, String.append_assoc]⟩

/-- C5: when the status is a success status and the JSON body is an object with
no `error` field and a non-empty `file` payload that `atob` decodes, a run of
`handleSubmit` with a file selected ends completed with the artifact set. If
`errors` is a non-empty list of strings, the error message is
"Some rows had issues:", a newline, and the warnings joined by newlines in
their order, so it contains every warning; if `errors` is absent or the empty
list, the error message is unset. -/
theorem warnings_coexist (E : Engine) (status : Nat) (props : List (String × Json))
    (payload bin : String) (w : World) (f : File)
    (hsel : w.selectedFile = some f) (hok : responseOk status = true)
    (herr : props.lookup "error" = none)
    (hfile : props.lookup "file" = some (.str payload)) (hne : payload ≠ "")
    (hdec : atob E payload = .ok bin) :
    (∀ ws : List String, ws ≠ [] → props.lookup "errors" = some (.arr (ws.map Json.str)) →
      (handleSubmit E (.response status (.json (.obj props))) w).processingState = .completed ∧
      (handleSubmit E (.response status (.json (.obj props))) w).processedFileUrl
        = some { blob := { bytes := charCodes bin, mimeType := xlsxMimeType } } ∧
      (handleSubmit E (.response status (.json (.obj props))) w).error
        = some ("Some rows had issues:\n" ++ joinWith "\n" ws) ∧
      ∀ x ∈ ws, ∃ pre post,
        "Some rows had issues:\n" ++ joinWith "\n" ws = pre ++ x ++ post) ∧
    (props.lookup "errors" = none ∨ props.lookup "errors" = some (.arr []) →
      (handleSubmit E (.response status (.json (.obj props))) w).processingState = .completed ∧
      (handleSubmit E (.response status (.json (.obj props))) w).processedFileUrl
        = some { blob := { bytes := charCodes bin, mimeType := xlsxMimeType } } ∧
      (handleSubmit E (.response status (.json (.obj props))) w).error = none) := by
  constructor
  · intro ws hws herrors
    have hlen : (List.map Json.str ws).isEmpty = false := by
      cases ws with
      | nil => exact absurd rfl hws
      | cons a rest => rfl
    refine ⟨?_, ?_, ?_, ?_⟩
    · simp [handleSubmit, hsel, submitSettle, submitStart, submitTry, responseJson, getField, herr,
        hfile, herrors, truthy, hne, hok, Json.toStr, toStr, Except.bind, hdec, surfaceWarnings,
        lengthPositive, callJoin, itemStrs_strings, hlen]
    · simp [handleSubmit, hsel, submitSettle, submitStart, submitTry, responseJson, getField, herr,
        hfile, herrors, truthy, hne, hok, Json.toStr, toStr, Except.bind, hdec, surfaceWarnings,
        lengthPositive, callJoin, itemStrs_strings, hlen]
    · simp [handleSubmit, hsel, submitSettle, submitStart, submitTry, responseJson, getField, herr,
        hfile, herrors, truthy, hne, hok, Json.toStr, toStr, Except.bind, hdec, surfaceWarnings,
        lengthPositive, callJoin, itemStrs_strings, hlen]
    · intro x hx
      obtain ⟨pre, post, hpp⟩ := joinWith_contains "\n" ws x hx
      exact ⟨"Some rows had issues:\n" ++ pre, post, by simp [hpp, String.append_assoc]⟩
  · intro herrors
    rcases herrors with herrors | herrors <;>
      simp [handleSubmit, hsel, submitSettle, submitStart, submitTry, responseJson, getField, herr,
        hfile, herrors, truthy, hne, hok, Json.toStr, toStr, Except.bind, hdec, surfaceWarnings,
        lengthPositive]

/-- C5, for the body with payload "SGk=" and the warning "row 2 missing SKU". -/
theorem warnings_coexist_witness :
    (handleSubmit sampleEngine (.response 200 (.json (.obj
        [("file", .str "SGk="), ("errors", .arr [.str "row 2 missing SKU"])]))) sampleWorld).processingState
      = .completed ∧
    (handleSubmit sampleEngine (.response 200 (.json (.obj
        [("file", .str "SGk="), ("errors", .arr [.str "row 2 missing SKU"])]))) sampleWorld).error
      = some ("Some rows had issues:\n" ++ joinWith "\n" ["row 2 missing SKU"]) :=
  ⟨((warnings_coexist sampleEngine 200
      [("file", .str "SGk="), ("errors", .arr [.str "row 2 missing SKU"])] "SGk=" "Hi"
      sampleWorld sampleFile rfl rfl rfl rfl (by decide) rfl).1
      ["row 2 missing SKU"] (by decide) rfl).1,
   ((warnings_coexist sampleEngine 200
      [("file", .str "SGk="), ("errors", .arr [.str "row 2 missing SKU"])] "SGk=" "Hi"
      sampleWorld sampleFile rfl rfl rfl rfl (by decide) rfl).1
      ["row 2 missing SKU"] (by decide) rfl).2.2.1⟩

/-- C6 (the code at the failing input): for status 500 and an empty body,
`response.json()` rejects before the status is looked at, `handleSubmit` ends
idle, and the error message is the text of the parse error, which does not
mention the status. For status 500 and the JSON body of an empty object the
message is the generic one with the status. -/
theorem empty_body_reports_parse_error :
    (handleSubmit sampleEngine (.response 500 (.notJson "")) sampleWorld).processingState = .idle ∧
    (handleSubmit sampleEngine (.response 500 (.notJson "")) sampleWorld).error
      = some "Unexpected end of JSON input" ∧
    (handleSubmit sampleEngine (.response 500 (.json (.obj []))) sampleWorld).error
      = some "Server error: 500" := by
  refine ⟨?_, ?_, ?_⟩ <;> rfl

/-! ## Base64 round trip -/

theorem base64Value_base64Char (n : Nat) (h : n < 64) : base64Value (base64Char n) = some n := by
  interval_cases n <;> rfl

theorem base64Char_ne_pad (n : Nat) (h : n < 64) : base64Char n ≠ '=' := by
  interval_cases n <;> decide

theorem base64Char_not_whitespace (n : Nat) (h : n < 64) :
    isAsciiWhitespace (base64Char n) = false := by
  interval_cases n <;> rfl

theorem encodeSextets_lt (bytes : List Nat) :
    (∀ b ∈ bytes, b < 256) → ∀ x ∈ encodeSextets bytes, x < 64 := by
  induction bytes using encodeSextets.induct with
  | case1 a b c rest ih =>
    intro h x hx
    have ha := h a (by simp)
    have hb := h b (by simp)
    have hc := h c (by simp)
    simp only [encodeSextets, List.mem_cons] at hx
    rcases hx with hx | hx | hx | hx | hx
    · omega
    · omega
    · omega
    · omega
    · exact ih (fun y hy => h y (by simp [hy])) x hx
  | case2 a b =>
    intro h x hx
    have ha := h a (by simp)
    have hb := h b (by simp)
    simp only [encodeSextets, List.mem_cons, List.mem_singleton] at hx
    rcases hx with hx | hx | hx
    · omega
    · omega
    · simp at hx; omega
  | case3 a =>
    intro h x hx
    have ha := h a (by simp)
    simp only [encodeSextets, List.mem_cons, List.mem_singleton] at hx
    rcases hx with hx | hx
    · omega
    · simp at hx; omega
  | case4 => intro _ x hx; simp [encodeSextets] at hx

theorem decodeSextets_encodeSextets (bytes : List Nat) :
    (∀ b ∈ bytes, b < 256) → decodeSextets (encodeSextets bytes) = bytes := by
  induction bytes using encodeSextets.induct with
  | case1 a b c rest ih =>
    intro h
    have ha := h a (by simp)
    have hb := h b (by simp)
    have hc := h c (by simp)
    simp only [encodeSextets, decodeSextets]
    rw [ih (fun y hy => h y (by simp [hy]))]
    congr 1
    · omega
    · congr 1
      · omega
      · congr 1
        omega
  | case2 a b =>
    intro h
    have ha := h a (by simp)
    have hb := h b (by simp)
    simp only [encodeSextets, decodeSextets]
    congr 1
    · omega
    · congr 1
      omega
  | case3 a =>
    intro h
    have ha := h a (by simp)
    simp only [encodeSextets, decodeSextets]
    congr 1
    omega
  | case4 => intro _; rfl

theorem encodeSextets_length (bytes : List Nat) :
    (bytes.length % 3 = 0 → (encodeSextets bytes).length % 4 = 0) ∧
    (bytes.length % 3 = 1 → (encodeSextets bytes).length % 4 = 2) ∧
    (bytes.length % 3 = 2 → (encodeSextets bytes).length % 4 = 3) := by
  induction bytes using encodeSextets.induct with
  | case1 a b c rest ih =>
    simp only [encodeSextets, List.length_cons]
    omega
  | case2 a b => simp [encodeSextets]
  | case3 a => simp [encodeSextets]
  | case4 => simp [encodeSextets]

theorem toNat_ofNat_byte (b : Nat) (h : b < 256) : (Char.ofNat b).toNat = b := by
  have hv : b.isValidChar := Or.inl (by omega)
  simp [Char.ofNat, hv, Char.ofNatAux, Char.toNat, UInt32.toNat]

theorem charCodes_bytes (bytes : List Nat) (h : ∀ b ∈ bytes, b < 256) :
    charCodes (String.mk (bytes.map Char.ofNat)) = bytes := by
  induction bytes with
  | nil => rfl
  | cons a rest ih =>
    have ha := h a (by simp)
    have hr := ih (fun y hy => h y (by simp [hy]))
    simp only [charCodes, List.map_cons, List.map_map] at hr ⊢
    rw [hr, toNat_ofNat_byte a ha]
    congr 1
    omega

theorem mapM_base64Value (xs : List Nat) (h : ∀ x ∈ xs, x < 64) :
    (xs.map base64Char).mapM base64Value = some xs := by
  induction xs with
  | nil => rfl
  | cons a rest ih =>
    have ha := h a (by simp)
    have hr := ih (fun y hy => h y (by simp [hy]))
    rw [List.map_cons, List.mapM_cons, base64Value_base64Char a ha, hr]
    rfl

theorem stripPadding_encoded (xs : List Nat) (h : ∀ x ∈ xs, x < 64) (n : Nat)
    (h1 : n % 3 = 1 → xs.length % 4 = 2)
    (h2 : n % 3 = 2 → xs.length % 4 = 3) :
    stripPadding (xs.map base64Char ++ base64Padding n) = xs.map base64Char := by
  have hlast : (xs.map base64Char).getLast? ≠ some '=' := by
    intro hl
    have hm := List.mem_of_getLast?_eq_some hl
    obtain ⟨x, hx, hxe⟩ := List.mem_map.mp hm
    exact base64Char_ne_pad x (h x hx) hxe
  have hmod : n % 3 = 0 ∨ n % 3 = 1 ∨ n % 3 = 2 := by omega
  rcases hmod with hm | hm | hm
  · have hp : base64Padding n = [] := by simp [base64Padding, hm]
    rw [hp, List.append_nil]
    unfold stripPadding
    rw [if_neg hlast]
    simp
  · have hl := h1 hm
    have hp : base64Padding n = ['=', '='] := by simp [base64Padding, hm]
    have e : xs.map base64Char ++ ['=', '='] = (xs.map base64Char ++ ['=']) ++ ['='] := by simp
    have hlen : ((xs.map base64Char ++ ['=']) ++ ['=']).length % 4 = 0 := by
      simp only [List.length_append, List.length_map, List.length_singleton]
      omega
    rw [hp, e]
    unfold stripPadding
    rw [if_pos hlen, List.getLast?_concat, List.dropLast_concat, List.getLast?_concat,
      List.dropLast_concat]
    simp
  · have hl := h2 hm
    have hp : base64Padding n = ['='] := by simp [base64Padding, hm]
    have hlen : (xs.map base64Char ++ ['=']).length % 4 = 0 := by
      simp only [List.length_append, List.length_map, List.length_singleton]
      omega
    rw [hp]
    unfold stripPadding
    rw [if_pos hlen, List.getLast?_concat, List.dropLast_concat, if_neg hlast]
    simp

/-- The function `atob` undoes the standard base64 encoding. -/
theorem atob_base64Encode (E : Engine) (bytes : List Nat) (h : ∀ b ∈ bytes, b < 256) :
    atob E (base64Encode bytes) = .ok (String.mk (bytes.map Char.ofNat)) := by
  have hlt := encodeSextets_lt bytes h
  obtain ⟨h0, h1, h2⟩ := encodeSextets_length bytes
  have hfilter : ((encodeSextets bytes).map base64Char ++ base64Padding bytes.length).filter
      (fun c => !isAsciiWhitespace c)
      = (encodeSextets bytes).map base64Char ++ base64Padding bytes.length := by
    rw [List.filter_eq_self]
    intro c hc
    rcases List.mem_append.mp hc with hc | hc
    · obtain ⟨x, hx, hxe⟩ := List.mem_map.mp hc
      rw [← hxe, base64Char_not_whitespace x (hlt x hx)]
      rfl
    · have : c = '=' := by
        unfold base64Padding at hc
        split at hc
        · simpa using hc
        · split at hc
          · simpa using hc
          · simp at hc
      subst this
      rfl
  have hlen : ((encodeSextets bytes).map base64Char).length % 4 ≠ 1 := by
    rw [List.length_map]
    omega
  simp only [atob, base64Encode, hfilter,
    stripPadding_encoded (encodeSextets bytes) hlt bytes.length h1 h2, if_neg hlen,
    mapM_base64Value (encodeSextets bytes) hlt, decodeSextets_encodeSextets bytes h]

theorem base64Encode_ne_empty (bytes : List Nat) (h : bytes ≠ []) : base64Encode bytes ≠ "" := by
  intro he
  have hd := congrArg String.data he
  simp only [base64Encode] at hd
  have hnil : encodeSextets bytes = [] := by
    have := congrArg List.length hd
    simp at this
    exact this.1
  cases bytes with
  | nil => exact h rfl
  | cons a rest =>
    cases rest with
    | nil => simp [encodeSextets] at hnil
    | cons b rest2 =>
      cases rest2 with
      | nil => simp [encodeSextets] at hnil
      | cons c rest3 => simp [encodeSextets] at hnil

/-- C1 (as stated, refuted): with a file selected, status 200, and the body
with no `error` field, the `file` field holding the base64 encoding of the
bytes 72, 105, and the `errors` field holding the string "x", the call of `join`
throws after the artifact was set, and the run ends idle with no artifact. -/
theorem roundtrip_needs_wellformed_warnings :
    sampleWorld.selectedFile = some sampleFile ∧ responseOk 200 = true ∧
    List.lookup "error" [("file", Json.str (base64Encode [72, 105])), ("errors", Json.str "x")]
      = none ∧
    List.lookup "file" [("file", Json.str (base64Encode [72, 105])), ("errors", Json.str "x")]
      = some (Json.str (base64Encode [72, 105])) ∧
    (handleSubmit sampleEngine (.response 200 (.json (.obj
        [("file", .str (base64Encode [72, 105])), ("errors", .str "x")]))) sampleWorld).processingState
      = .idle ∧
    (handleSubmit sampleEngine (.response 200 (.json (.obj
        [("file", .str (base64Encode [72, 105])), ("errors", .str "x")]))) sampleWorld).processedFileUrl
      = none := by
  refine ⟨rfl, rfl, rfl, rfl, ?_, ?_⟩ <;> decide

/-- C1 (amended): for every non-empty byte sequence, when a file is selected,
the status is a success status, and the JSON body is an object with no `error`
field, a `file` field holding the standard base64 encoding of the bytes, and an
`errors` field that is absent or a list of strings, a run of `handleSubmit`
ends completed and the artifact holds exactly those bytes. -/
theorem processed_file_roundtrip (E : Engine) (status : Nat) (props : List (String × Json))
    (bytes : List Nat) (w : World) (f : File)
    (hsel : w.selectedFile = some f) (hne : bytes ≠ []) (hbytes : ∀ b ∈ bytes, b < 256)
    (hok : responseOk status = true) (herr : props.lookup "error" = none)
    (hfile : props.lookup "file" = some (.str (base64Encode bytes)))
    (herrors : props.lookup "errors" = none ∨
      ∃ ws : List String, props.lookup "errors" = some (.arr (ws.map Json.str))) :
    (handleSubmit E (.response status (.json (.obj props))) w).processingState = .completed ∧
    (handleSubmit E (.response status (.json (.obj props))) w).processedFileUrl
      = some { blob := { bytes := bytes, mimeType := xlsxMimeType } } := by
  have hdec := atob_base64Encode E bytes hbytes
  have hpay := base64Encode_ne_empty bytes hne
  have hcodes := charCodes_bytes bytes hbytes
  rcases herrors with herrors | ⟨ws, herrors⟩
  · constructor <;>
      simp [handleSubmit, hsel, submitSettle, submitStart, submitTry, responseJson, getField,
        herr, hfile, herrors, truthy, hpay, hok, Json.toStr, toStr, Except.bind, hdec, hcodes,
        surfaceWarnings]
  · cases ws with
    | nil =>
      constructor <;>
        simp [handleSubmit, hsel, submitSettle, submitStart, submitTry, responseJson, getField,
          herr, hfile, herrors, truthy, hpay, hok, Json.toStr, toStr, Except.bind, hdec, hcodes,
          surfaceWarnings, lengthPositive]
    | cons x rest =>
      have hitems := itemStrs_strings E (x :: rest)
      simp only [List.map_cons] at hitems herrors
      constructor <;>
        simp [handleSubmit, hsel, submitSettle, submitStart, submitTry, responseJson, getField,
          herr, hfile, herrors, truthy, hpay, hok, Json.toStr, toStr, Except.bind, hdec, hcodes,
          surfaceWarnings, lengthPositive, callJoin, hitems]

/-- C1 (amended), for the bytes 72, 105, 0, 255 and a body with nothing but `file`. -/
theorem processed_file_roundtrip_witness :
    (handleSubmit sampleEngine (.response 200 (.json (.obj
        [("file", .str (base64Encode [72, 105, 0, 255]))]))) sampleWorld).processingState
      = .completed ∧
    (handleSubmit sampleEngine (.response 200 (.json (.obj
        [("file", .str (base64Encode [72, 105, 0, 255]))]))) sampleWorld).processedFileUrl
      = some { blob := { bytes := [72, 105, 0, 255], mimeType := xlsxMimeType } } :=
  processed_file_roundtrip sampleEngine 200 [("file", .str (base64Encode [72, 105, 0, 255]))]
    [72, 105, 0, 255] sampleWorld sampleFile rfl (by decide) (by decide) rfl rfl rfl (Or.inl rfl)

/-! ## The state machine of the mounted component -/

theorem handleFileChange_frame (file : Option File) (w : World) :
    (handleFileChange file w).processingState = w.processingState ∧
    (handleFileChange file w).pending = w.pending ∧
    (handleFileChange file w).processedFileUrl = w.processedFileUrl := by
  unfold handleFileChange
  split
  · simp
  · split <;> simp

theorem uploadTick_frame (id : Nat) (w : World) :
    (uploadTick id w).processingState = w.processingState ∧
    (uploadTick id w).pending = w.pending ∧
    (uploadTick id w).processedFileUrl = w.processedFileUrl := by
  unfold uploadTick
  split
  · simp
  · split <;> simp

theorem handleDownload_frame (w : World) :
    (handleDownload w).processingState = w.processingState ∧
    (handleDownload w).pending = w.pending ∧
    (handleDownload w).processedFileUrl = w.processedFileUrl := by
  unfold handleDownload
  split <;> simp

theorem submitTry_frame (E : Engine) (reply : Reply) (w : World) :
    ∃ ps url err, (submitTry E reply w).1
      = { w with processingState := ps, processedFileUrl := url, error := err } := by
  unfold submitTry
  repeat' split
  all_goals try exact ⟨_, _, _, rfl⟩
  dsimp only
  split
  · rename_i heq
    rcases surfaceWarnings_frame E _ _ with h | ⟨m, h⟩
    · rw [heq] at h
      simp only at h
      exact ⟨_, _, _, h⟩
    · rw [heq] at h
      simp only at h
      exact ⟨_, _, _, h⟩
  · rename_i heq
    rcases surfaceWarnings_frame E _ _ with h | ⟨m, h⟩
    · rw [heq] at h
      simp only at h
      exact ⟨_, _, _, by rw [h]; rfl⟩
    · rw [heq] at h
      simp only at h
      exact ⟨_, _, _, by rw [h]; rfl⟩

theorem submitSettle_pending (E : Engine) (reply : Reply) (w : World) :
    (submitSettle E reply w).pending = w.pending.tail := by
  simp only [submitSettle]
  obtain ⟨ps, url, err, h⟩ := submitTry_frame E reply { w with pending := w.pending.tail }
  split
  · rename_i w1 heq
    rw [heq] at h
    simp only at h
    rw [h]
  · rename_i w1 m heq
    rw [heq] at h
    simp only at h
    rw [h]
    rfl

theorem submitSettle_outcome (E : Engine) (reply : Reply) (w : World) :
    ((submitSettle E reply w).processingState = .completed ∧
      (submitSettle E reply w).processedFileUrl.isSome = true) ∨
    ((submitSettle E reply w).processingState = .idle ∧
      (submitSettle E reply w).processedFileUrl = none) := by
  simp only [submitSettle]
  split
  · rename_i w1 heq
    left
    have := submitTry_returns E reply _ (by rw [heq])
    rw [heq] at this
    exact this
  · rename_i w1 m heq
    right
    exact ⟨rfl, rfl⟩

theorem consistent_initial : Consistent World.initial := by
  refine ⟨?_, ?_, ?_⟩ <;> simp [World.initial, State.initial]

theorem dispatch_consistent (E : Engine) (C : Components) (ev : Event) (w : World)
    (hc : Consistent w) : Consistent (dispatch E C ev w) := by
  obtain ⟨hp, hl, hu⟩ := hc
  unfold dispatch
  split
  case isFalse => exact ⟨hp, hl, hu⟩
  case isTrue hen =>
    cases ev with
    | select file =>
      obtain ⟨h1, h2, h3⟩ := handleFileChange_frame file { w with fileInput := file }
      simp only [handle, Consistent]
      rw [h1, h2, h3]
      exact ⟨hp, hl, hu⟩
    | tick id =>
      obtain ⟨h1, h2, h3⟩ := uploadTick_frame id w
      simp only [handle, Consistent]
      rw [h1, h2, h3]
      exact ⟨hp, hl, hu⟩
    | remove =>
      simp only [enabled, Bool.and_eq_true, beq_iff_eq] at hen
      have hidle := hen.1.1
      refine ⟨?_, hl, ?_⟩
      · exact hp
      · intro h
        have : w.processingState = .completed := h
        rw [hidle] at this
        cases this
    | submit =>
      simp only [enabled, Bool.and_eq_true, beq_iff_eq] at hen
      have hidle := hen.1
      have hnil : w.pending = [] := by
        by_contra hne
        have := hp.mp hne
        rw [hidle] at this
        cases this
      simp only [handle, submitStart]
      split
      · refine ⟨hp, hl, hu⟩
      · refine ⟨?_, ?_, ?_⟩ <;> simp [hnil]
    | settle reply =>
      simp only [enabled, Bool.not_eq_true', List.isEmpty_eq_false] at hen
      have htail : w.pending.tail = [] := by
        cases hw : w.pending with
        | nil => rfl
        | cons a rest =>
          rw [hw] at hl
          simp only [List.length_cons] at hl
          have : rest.length = 0 := by omega
          simpa using this
      have hpend := submitSettle_pending E reply w
      rw [htail] at hpend
      simp only [handle]
      rcases submitSettle_outcome E reply w with ⟨h1, h2⟩ | ⟨h1, h2⟩
      · refine ⟨?_, ?_, ?_⟩
        · rw [hpend, h1]; simp
        · rw [hpend]; simp
        · intro _; exact h2
      · refine ⟨?_, ?_, ?_⟩
        · rw [hpend, h1]; simp
        · rw [hpend]; simp
        · intro h; rw [h1] at h; cases h
    | download =>
      obtain ⟨h1, h2, h3⟩ := handleDownload_frame w
      simp only [handle, Consistent]
      rw [h1, h2, h3]
      exact ⟨hp, hl, hu⟩
    | reset =>
      simp only [enabled, beq_iff_eq] at hen
      have hnil : w.pending = [] := by
        by_contra hne
        have := hp.mp hne
        rw [hen] at this
        cases this
      refine ⟨?_, ?_, ?_⟩ <;> simp [handle, resetForm, hnil]

theorem run_consistent (E : Engine) (C : Components) (events : List Event) :
    ∀ w, Consistent w → Consistent (run E C events w) := by
  induction events with
  | nil => intro w hw; exact hw
  | cons ev rest ih =>
    intro w hw
    exact ih _ (dispatch_consistent E C ev w hw)

/-- C2: in every state the mounted component reaches by a sequence of events
(select, tick, remove, submit, the settling of a submission, download, reset),
the next event moves `processingState` to processing only if it is a submit in
the idle state with a file selected, and to completed only from processing; a
submit in a state that is not idle changes nothing, and at most one request is
pending at any time. -/
theorem processing_entered_only_by_submit (E : Engine) (C : Components)
    (events : List Event) (ev : Event) :
    ((dispatch E C ev (run E C events World.initial)).processingState = .processing →
      (run E C events World.initial).processingState ≠ .processing →
      ev = .submit ∧ (run E C events World.initial).processingState = .idle ∧
        (run E C events World.initial).selectedFile.isSome = true) ∧
    ((dispatch E C ev (run E C events World.initial)).processingState = .completed →
      (run E C events World.initial).processingState ≠ .completed →
      (run E C events World.initial).processingState = .processing) ∧
    (ev = .submit → (run E C events World.initial).processingState ≠ .idle →
      dispatch E C ev (run E C events World.initial) = run E C events World.initial) ∧
    (dispatch E C ev (run E C events World.initial)).pending.length ≤ 1 := by
  have hc := run_consistent E C events World.initial consistent_initial
  have hc2 := dispatch_consistent E C ev _ hc
  generalize run E C events World.initial = w at hc hc2 ⊢
  obtain ⟨hp, hl, hu⟩ := hc
  refine ⟨?_, ?_, ?_, hc2.2.1⟩
  · intro h1 h0
    unfold dispatch at h1
    split at h1
    case isFalse => exact absurd h1 h0
    case isTrue hen =>
      cases ev with
      | select file =>
        rw [handle, (handleFileChange_frame file _).1] at h1
        exact absurd h1 h0
      | tick id =>
        rw [handle, (uploadTick_frame id _).1] at h1
        exact absurd h1 h0
      | remove => exact absurd h1 h0
      | submit =>
        simp only [enabled, Bool.and_eq_true, beq_iff_eq] at hen
        refine ⟨rfl, hen.1, ?_⟩
        cases hs : w.selectedFile with
        | none =>
          simp only [handle, submitStart, hs] at h1
          exact absurd h1 h0
        | some f => rfl
      | settle reply =>
        rcases submitSettle_outcome E reply w with ⟨h2, _⟩ | ⟨h2, _⟩
        · rw [handle, h2] at h1; cases h1
        · rw [handle, h2] at h1; cases h1
      | download =>
        rw [handle, (handleDownload_frame _).1] at h1
        exact absurd h1 h0
      | reset => cases h1
  · intro h1 h0
    unfold dispatch at h1
    split at h1
    case isFalse => exact absurd h1 h0
    case isTrue hen =>
      cases ev with
      | select file =>
        rw [handle, (handleFileChange_frame file _).1] at h1
        exact absurd h1 h0
      | tick id =>
        rw [handle, (uploadTick_frame id _).1] at h1
        exact absurd h1 h0
      | remove => exact absurd h1 h0
      | submit =>
        cases hs : w.selectedFile with
        | none =>
          simp only [handle, submitStart, hs] at h1
          exact absurd h1 h0
        | some f =>
          simp only [handle, submitStart, hs] at h1
          cases h1
      | settle reply =>
        simp only [enabled, Bool.not_eq_true', List.isEmpty_eq_false] at hen
        exact hp.mp hen
      | download =>
        rw [handle, (handleDownload_frame _).1] at h1
        exact absurd h1 h0
      | reset => cases h1
  · intro hev hni
    subst hev
    unfold dispatch
    split
    case isFalse => rfl
    case isTrue hen =>
      simp only [enabled, Bool.and_eq_true, beq_iff_eq] at hen
      exact absurd hen.1 hni

/-- The handler alone has no guard on `processingState`: called in a completed
state with a file selected it starts a new submission. Only the render
condition of line 215 keeps a submit from occurring outside idle. -/
theorem submitStart_unguarded (w : World) (f : File) (hsel : w.selectedFile = some f) :
    (submitStart w).processingState = .processing := by
  simp [submitStart, hsel]

/-- C9 (as stated, refuted): in a completed state `handleRemoveFile` clears the
selected file and the artifact but leaves `processingState` completed, and the
remove event of the mounted component does nothing there. -/
theorem remove_leaves_completed :
    completedWorld.processingState = .completed ∧
    (handleRemoveFile completedWorld).processingState = .completed ∧
    (handleRemoveFile completedWorld).processedFileUrl = none ∧
    (dispatch sampleEngine { inputDisabled := true, buttonDisabled := true } .remove
      completedWorld).processingState = .completed := by
  refine ⟨?_, ?_, ?_, ?_⟩ <;> decide

/-- C9 (amended): from every state `resetForm` leads to idle with no selected
file and no artifact; `handleRemoveFile` clears the selected file and the
artifact and leaves `processingState` as it is; its button exists only while
idle; and every state the mounted component reaches that is completed has an
artifact. -/
theorem reset_exits_completed :
    (∀ w : World, (resetForm w).processingState = .idle ∧ (resetForm w).selectedFile = none ∧
      (resetForm w).processedFileUrl = none) ∧
    (∀ w : World, (handleRemoveFile w).processingState = w.processingState ∧
      (handleRemoveFile w).selectedFile = none ∧ (handleRemoveFile w).processedFileUrl = none) ∧
    (∀ (C : Components) (w : World), enabled C w .remove = true → w.processingState = .idle) ∧
    (∀ (E : Engine) (C : Components) (events : List Event),
      (run E C events World.initial).processingState = .completed →
      (run E C events World.initial).processedFileUrl.isSome = true) := by
  refine ⟨fun w => ⟨rfl, rfl, rfl⟩, fun w => ⟨rfl, rfl, rfl⟩, ?_, ?_⟩
  · intro C w hen
    simp only [enabled, Bool.and_eq_true, beq_iff_eq] at hen
    exact hen.1.1
  · intro E C events
    exact (run_consistent E C events World.initial consistent_initial).2.2

/-- C9 (amended), for the events that select `sampleFile`, let the upload run,
submit, and receive a processed file. -/
theorem reset_exits_completed_witness :
    (run sampleEngine { inputDisabled := true, buttonDisabled := true }
      ([.select (some sampleFile)] ++ List.replicate 11 (.tick 0) ++
        [.submit, .settle (.response 200 (.json (.obj [("file", .str "SGk=")])))])
      World.initial).processedFileUrl.isSome = true := by
  have h : (run sampleEngine { inputDisabled := true, buttonDisabled := true }
      ([.select (some sampleFile)] ++ List.replicate 11 (.tick 0) ++
        [.submit, .settle (.response 200 (.json (.obj [("file", .str "SGk=")])))])
      World.initial).processingState = .completed := by
    decide!
  exact reset_exits_completed.2.2.2 _ _ _ h

/-- C2, for the submit that follows the upload of `sampleFile`: it enters
processing, and it was issued in the idle state with the file selected. -/
theorem processing_entered_only_by_submit_witness :
    (dispatch sampleEngine { inputDisabled := true, buttonDisabled := true } .submit
      (run sampleEngine { inputDisabled := true, buttonDisabled := true }
        ([.select (some sampleFile)] ++ List.replicate 11 (.tick 0))
        World.initial)).processingState = .processing ∧
    (run sampleEngine { inputDisabled := true, buttonDisabled := true }
      ([.select (some sampleFile)] ++ List.replicate 11 (.tick 0))
      World.initial).processingState = .idle ∧
    (run sampleEngine { inputDisabled := true, buttonDisabled := true }
      ([.select (some sampleFile)] ++ List.replicate 11 (.tick 0))
      World.initial).selectedFile.isSome = true := by
  have h : (dispatch sampleEngine { inputDisabled := true, buttonDisabled := true } .submit
      (run sampleEngine { inputDisabled := true, buttonDisabled := true }
        ([.select (some sampleFile)] ++ List.replicate 11 (.tick 0))
        World.initial)).processingState = .processing := by
    decide!
  have h0 : (run sampleEngine { inputDisabled := true, buttonDisabled := true }
      ([.select (some sampleFile)] ++ List.replicate 11 (.tick 0))
      World.initial).processingState ≠ .processing := by
    decide!
  exact ⟨h, ((processing_entered_only_by_submit _ _ _ _).1 h h0).2⟩

end ExcelProcessor
